import Mathlib

/-!
Verification of the normalization / structural-difference / chained-deduplication
core of `dedup_json.py`.

The JSON trees the script manipulates are modelled by the inductive type `JSON`
(Python mappings become ordered association lists, sequences become lists,
scalars become `str` / `int` / `float` / `bool` / `null`).  Python `float`
values are carried as rationals; Python `bool` is a subclass of `int`, so the
numeric `isinstance` tests below treat `bool` as numeric, exactly as CPython
does.  The in-place mutation of the script is modelled by pure functions
returning the mutated tree; `copy.deepcopy` is the identity in this pure
setting.
-/

inductive JSON where
  | obj : List (String × JSON) → JSON
  | arr : List JSON → JSON
  | str : String → JSON
  | int : Int → JSON
  | float : ℚ → JSON
  | bool : Bool → JSON
  | null : JSON


mutual
def jbeq : JSON → JSON → Bool
  | .obj a, .obj b => jbeqKVs a b
  | .arr a, .arr b => jbeqList a b
  | .str a, .str b => a == b
  | .int a, .int b => a == b
  | .float a, .float b => a == b
  | .bool a, .bool b => a == b
  | .null, .null => true
  | _, _ => false

def jbeqKVs : List (String × JSON) → List (String × JSON) → Bool
  | [], [] => true
  | (k1, v1) :: r1, (k2, v2) :: r2 => k1 == k2 && jbeq v1 v2 && jbeqKVs r1 r2
  | _, _ => false

def jbeqList : List JSON → List JSON → Bool
  | [], [] => true
  | v1 :: r1, v2 :: r2 => jbeq v1 v2 && jbeqList r1 r2
  | _, _ => false
end

instance : DecidableEq JSON := fun a b =>
  have key : ∀ a b : JSON, jbeq a b = true ↔ a = b := by
    apply jbeq.induct
      (fun a b => jbeq a b = true ↔ a = b)
      (fun a b => jbeqList a b = true ↔ a = b)
      (fun a b => jbeqKVs a b = true ↔ a = b)
    case case8 =>
      intro t x h1 h2 h3 h4 h5 h6 h7
      cases t <;> cases x <;>
        first
        | exact (h1 _ _ rfl rfl).elim
        | exact (h2 _ _ rfl rfl).elim
        | exact (h3 _ _ rfl rfl).elim
        | exact (h4 _ _ rfl rfl).elim
        | exact (h5 _ _ rfl rfl).elim
        | exact (h6 _ _ rfl rfl).elim
        | exact (h7 rfl rfl).elim
        | exact iff_of_false (fun h => Bool.noConfusion h) (fun h => JSON.noConfusion h)
    case case11 =>
      intro t x h1 h2
      cases t <;> cases x <;>
        first
        | exact (h1 rfl rfl).elim
        | exact (h2 _ _ _ _ _ _ rfl rfl).elim
        | exact iff_of_false (fun h => Bool.noConfusion h) (fun h => List.noConfusion h)
    case case14 =>
      intro t x h1 h2
      cases t <;> cases x <;>
        first
        | exact (h1 rfl rfl).elim
        | exact (h2 _ _ _ _ rfl rfl).elim
        | exact iff_of_false (fun h => Bool.noConfusion h) (fun h => List.noConfusion h)
    all_goals intros
    all_goals simp_all [jbeq, jbeqKVs, jbeqList]
  decidable_of_iff _ (key a b)

mutual
/-- Structural size of a tree; every scalar has size 1. -/
def jsize : JSON → Nat
  | .obj kvs => jsizeKVs kvs + 1
  | .arr l => jsizeList l + 1
  | _ => 1

def jsizeKVs : List (String × JSON) → Nat
  | [] => 0
  | (_, v) :: rest => jsize v + jsizeKVs rest + 1

def jsizeList : List JSON → Nat
  | [] => 0
  | v :: rest => jsize v + jsizeList rest + 1
end

/-! ### Python-style runtime type tests (`isinstance` checks) -/

/-- Python `isinstance(v, (int, float))`: in CPython, `bool` is a subclass of `int`. -/
def pyIsNumeric : JSON → Bool
  | .int _ => true
  | .float _ => true
  | .bool _ => true
  | _ => false

/-- Python `isinstance(v, str)`. -/
def pyIsStr : JSON → Bool
  | .str _ => true
  | _ => false

/-- Python `isinstance(v, dict)`. -/
def pyIsDict : JSON → Bool
  | .obj _ => true
  | _ => false

/-- Python `isinstance(v, list)`. -/
def pyIsList : JSON → Bool
  | .arr _ => true
  | _ => false

/-- Python `isinstance(v, (dict, list))`. -/
def pyIsContainer : JSON → Bool
  | .obj _ => true
  | .arr _ => true
  | _ => false

/-- Python `isinstance(v, int) and v > -1` (line 28); `bool` is an `int` in Python
and both `False > -1` and `True > -1` hold. -/
def pyIsIntGtNeg1 : JSON → Bool
  | .int n => decide (-1 < n)
  | .bool _ => true
  | _ => false

/-! ### String helpers (ASCII, matching CPython on the relevant inputs) -/

def pyToLowerChar (c : Char) : Char :=
  if 65 ≤ c.toNat ∧ c.toNat ≤ 90 then Char.ofNat (c.toNat + 32) else c

/-- Python `s.lower()`. -/
def pyLower (s : String) : String := String.mk (s.data.map pyToLowerChar)

/-- Lexicographic comparison of character lists by code point. -/
def strLeChars : List Char → List Char → Bool
  | [], _ => true
  | _ :: _, [] => false
  | c :: cs, d :: ds =>
    if c.toNat < d.toNat then true
    else if c.toNat = d.toNat then strLeChars cs ds
    else false

/-- Comparison `a <= b` on Python strings (code-point lexicographic order). -/
def strLe (a b : String) : Bool := strLeChars a.data b.data

/-! ### The normalizer (`normalize_workflow_seeds`, lines 8 to 46) -/

def seed_keys : List String := ["seed", "noise_seed"]

def control_keys_to_normalize : List String :=
  ["control_after_generate", "control_before_generate"]

def control_words : List String := ["randomize", "increment", "decrement", "fixed"]

def excluded_keys : List String :=
  ["last_node_id", "last_link_id", "version", "date", "time", "_meta_data_checksum"]

/-- Is the value a string whose lower-cased form is one of the control words
(line 29 / line 32)? -/
def isControlWord : JSON → Bool
  | .str s => control_words.contains (pyLower s)
  | _ => false

/-- The in-place pairwise scan over a `widgets_values` list (lines 27 to 33).
The Python loop reads the live list, so after rewriting positions `i`, `i+1`
to `0`, `"fixed"`, iteration `i+1` sees the fresh `"fixed"`, which the `elif`
branch rewrites to `"fixed"` again (a no-op); the recursion below therefore
emits both rewritten cells and continues at `i+2`. -/
def normWidgets : List JSON → List JSON
  | [] => []
  | [v] =>
    if pyIsIntGtNeg1 v then [v]
    else if isControlWord v then [JSON.str "fixed"]
    else [v]
  | v :: next :: rest2 =>
    if pyIsIntGtNeg1 v then
      if isControlWord next then
        JSON.int 0 :: JSON.str "fixed" :: normWidgets rest2
      else
        v :: normWidgets (next :: rest2)
    else if isControlWord v then
      JSON.str "fixed" :: normWidgets (next :: rest2)
    else
      v :: normWidgets (next :: rest2)

/-- Lines 17 to 19: numeric values under `seed` / `noise_seed` become `0`
(the Python literal `0` is an `int`). -/
def seedStep (k : String) (v : JSON) : JSON :=
  if seed_keys.contains k && pyIsNumeric v then .int 0 else v

def seedPass (kvs : List (String × JSON)) : List (String × JSON) :=
  kvs.map fun kv => (kv.1, seedStep kv.1 kv.2)

/-- Lines 21 to 23: string values under the control keys become `"fixed"`. -/
def controlStep (k : String) (v : JSON) : JSON :=
  if control_keys_to_normalize.contains k && pyIsStr v then .str "fixed" else v

def controlPass (kvs : List (String × JSON)) : List (String × JSON) :=
  kvs.map fun kv => (kv.1, controlStep kv.1 kv.2)

/-- Lines 25 to 33: the pairwise scan applied to a `widgets_values` list. -/
def widgetsStep (k : String) (v : JSON) : JSON :=
  if k == "widgets_values" then
    match v with
    | .arr l => .arr (normWidgets l)
    | _ => v
  else v

def widgetsPass (kvs : List (String × JSON)) : List (String × JSON) :=
  kvs.map fun kv => (kv.1, widgetsStep kv.1 kv.2)

/-- Fuel-indexed normalizer.  `normGo f t` equals the Python function whenever
`jsize t ≤ f` (shown below); the fuel only serves to make the recursion
structural.  The `obj` branch performs, in source order: the seed pass, the
control pass, the `widgets_values` scan, the explicit recursion into `inputs`
(lines 35 to 36), and the final recursion over all non-excluded container
values (lines 38 to 42, which visits the already-normalized `inputs` value a
second time).  The `arr` branch (lines 44 to 46) recurses into every item. -/
def normGo : Nat → JSON → JSON
  | 0, t => t
  | f + 1, .obj kvs =>
    let kvs3 := widgetsPass (controlPass (seedPass kvs))
    let kvs4 := kvs3.map fun kv =>
      if kv.1 == "inputs" && pyIsDict kv.2 then (kv.1, normGo f kv.2) else kv
    let kvs5 := kvs4.map fun kv =>
      if excluded_keys.contains kv.1 then kv
      else if pyIsContainer kv.2 then (kv.1, normGo f kv.2) else kv
    .obj kvs5
  | f + 1, .arr l => .arr (l.map (normGo f))
  | _ + 1, t => t

/-- The function `normalize_workflow_seeds` (lines 8 to 46), as a pure function. -/
def normalize_workflow_seeds (t : JSON) : JSON := normGo (jsize t) t

/-- Line 35 to 36: the explicit recursion into an `inputs` mapping, as it reads
after the whole function has been defined. -/
def inputsStep (k : String) (v : JSON) : JSON :=
  if k == "inputs" && pyIsDict v then normalize_workflow_seeds v else v

def inputsPass (kvs : List (String × JSON)) : List (String × JSON) :=
  kvs.map fun kv => (kv.1, inputsStep kv.1 kv.2)

/-- Lines 38 to 42: recursion into every container value whose key is not
excluded. -/
def recurseStep (k : String) (v : JSON) : JSON :=
  if excluded_keys.contains k then v
  else if pyIsContainer v then normalize_workflow_seeds v else v

def recursePass (kvs : List (String × JSON)) : List (String × JSON) :=
  kvs.map fun kv => (kv.1, recurseStep kv.1 kv.2)

/-- The per-entry effect of one normalization pass over a mapping, obtained by
fusing the five passes of `normalize_obj`. -/
def entryNorm (k : String) (v : JSON) : JSON :=
  recurseStep k (inputsStep k (widgetsStep k (controlStep k (seedStep k v))))

/-! ### The path flattener (`flatten_json_to_paths`, lines 48 to 68) -/

/-- Python `sorted(obj.items())` (line 55): Python sorts the key/value tuples; keys of
a `dict` are unique, so this is a stable sort by key in code-point order. -/
def sortByKey (kvs : List (String × JSON)) : List (String × JSON) :=
  List.insertionSort (fun a b => strLe a.1 b.1 = true) kvs

mutual
/-- Fuel-indexed flattener; `flattenGo f t path` equals the Python function
whenever `jsize t ≤ f` (shown below). -/
def flattenGo : Nat → JSON → String → List (String × JSON)
  | 0, _, _ => []
  | f + 1, .obj kvs, path => flattenKVsGo f (sortByKey kvs) path
  | f + 1, .arr l, path => flattenListGo f l path 0
  | _ + 1, _, _ => []

def flattenKVsGo : Nat → List (String × JSON) → String → List (String × JSON)
  | 0, _, _ => []
  | _ + 1, [], _ => []
  | f + 1, (k, v) :: rest, path =>
    (if pyIsContainer v then flattenGo f v (if path == "" then k else path ++ "." ++ k)
     else [((if path == "" then k else path ++ "." ++ k), v)]) ++ flattenKVsGo f rest path

def flattenListGo : Nat → List JSON → String → Nat → List (String × JSON)
  | 0, _, _, _ => []
  | _ + 1, [], _, _ => []
  | f + 1, v :: rest, path, i =>
    (if pyIsContainer v then flattenGo f v (path ++ "[" ++ toString i ++ "]")
     else [((path ++ "[" ++ toString i ++ "]"), v)]) ++ flattenListGo f rest path (i + 1)
end


/-- The function `flatten_json_to_paths` (lines 48 to 68): mappings contribute `.key` path
segments in sorted key order, sequences contribute `[i]` segments, scalars are
emitted as `(path, value)` pairs; a scalar at the root yields the empty list. -/
def flatten_json_to_paths (t : JSON) (path : String := "") : List (String × JSON) :=
  flattenGo (jsize t) t path

/-- The body of the `dict` branch (lines 54 to 60), written with the fully
defined flattener. -/
def flattenKVsP : List (String × JSON) → String → List (String × JSON)
  | [], _ => []
  | (k, v) :: rest, path =>
    (if pyIsContainer v then flatten_json_to_paths v (if path == "" then k else path ++ "." ++ k)
     else [((if path == "" then k else path ++ "." ++ k), v)]) ++ flattenKVsP rest path

/-- The body of the `list` branch (lines 61 to 67), written with the fully
defined flattener. -/
def flattenListP : List JSON → String → Nat → List (String × JSON)
  | [], _, _ => []
  | v :: rest, path, i =>
    (if pyIsContainer v then flatten_json_to_paths v (path ++ "[" ++ toString i ++ "]")
     else [((path ++ "[" ++ toString i ++ "]"), v)]) ++ flattenListP rest path (i + 1)


/-! ### The difference metric (`calculate_json_difference_percentage`, lines 70 to 98) -/

/-- Python `set(flatten_json_to_paths(x))` for a normalized document. -/
def pathSet (t : JSON) : Finset (String × JSON) :=
  (flatten_json_to_paths (normalize_workflow_seeds t) "").toFinset

/-- Lines 70 to 98.  Both inputs are deep-copied and normalized (deep copy is
the identity here because normalization is pure), flattened into sets of
`(path, value)` tuples, and compared by symmetric difference over union; an
empty union gives `0.0`.  The Python float arithmetic on these small exact
counts is modelled by exact rational arithmetic. -/
def calculate_json_difference_percentage (json1_data json2_data : JSON) : ℚ :=
  let paths1 := pathSet json1_data
  let paths2 := pathSet json2_data
  let unique_to_1 := paths1 \ paths2
  let unique_to_2 := paths2 \ paths1
  let total_elements_in_union := (paths1 ∪ paths2).card
  if total_elements_in_union = 0 then 0
  else ((unique_to_1.card + unique_to_2.card : ℚ) / total_elements_in_union) * 100

/-! ### The chain dedup engine (`compare_and_delete_jsons`, lines 101 to 189) -/

/-- Outcome recorded for one non-initial file (the `action` string of
lines 163 to 172): `kept`, `deleted`, or `deleteError` when `os.remove`
raised `OSError`. -/
inductive FileAction where
  | kept
  | deleted
  | deleteError
deriving DecidableEq

/-- The loop state of `compare_and_delete_jsons`, mirroring the Python
variables one to one.  `previous_json_data` holds Python `None` or the last
kept parsed document; since `json.load` of a file containing `null` returns
`None`, Python cannot tell "no baseline yet" (line 132) from "the last kept
document was null" — both are `None`, and both are `JSON.null` here (Python
`None` and JSON null are the same value).  `previous_json_filename` starts as
`None` (line 133). -/
structure DedupState where
  previous_json_data : JSON
  previous_json_filename : Option String
  deleted_count : Nat
  total_compared : Nat
deriving DecidableEq

def initialState : DedupState := ⟨JSON.null, none, 0, 0⟩

/-- One iteration of the loop (lines 137 to 181) for a file that parsed
successfully.  `threshold` is `delete_threshold_percent` (`none` when the
option was not supplied, so that `is_deletion_mode` is false); `deleteOk`
tells whether the `os.remove` side effect would succeed.  Returns the new
state together with the report for this file: `none` when line 154's
`previous_json_data is None` test fires — which it also does right after a
null document was kept, because that document loaded as `None` — otherwise
`some (percentage_diff, action)`. -/
def processFile (threshold : Option ℚ) (deleteOk : Bool) (st : DedupState)
    (filename : String) (doc : JSON) : DedupState × Option (ℚ × FileAction) :=
  if st.previous_json_data = JSON.null then
    ({ st with previous_json_data := doc, previous_json_filename := some filename }, none)
  else
    let percentage_diff := calculate_json_difference_percentage doc st.previous_json_data
    let action : FileAction :=
      match threshold with
      | some tr => if percentage_diff < tr then (if deleteOk then .deleted else .deleteError)
                   else .kept
      | none => .kept
    let st1 : DedupState :=
      { st with
        total_compared := st.total_compared + 1
        deleted_count := st.deleted_count + (if action = .deleted then 1 else 0) }
    let st2 : DedupState :=
      if action = .kept then
        { st1 with previous_json_data := doc, previous_json_filename := some filename }
      else st1
    (st2, some (percentage_diff, action))

/-- The whole loop over the sorted file list: each entry carries the filename,
the parsed tree and whether deletion would succeed for it.  Files that fail to
parse are skipped by the loop (lines 141 to 152) and simply do not appear in
this list. -/
def compare_and_delete_jsons (threshold : Option ℚ)
    (files : List (String × JSON × Bool)) : DedupState :=
  files.foldl (fun st f => (processFile threshold f.2.2 st f.1 f.2.1).1) initialState

/-! ### Concrete documents used in the worked examples -/

/-- Document `F1 = {seed: 1, x: 5}` from the spec's chain example. -/
def specF1 : JSON := .obj [("seed", .int 1), ("x", .int 5)]

/-- Document `F2 = {seed: 2, x: 5}` from the spec's chain example. -/
def specF2 : JSON := .obj [("seed", .int 2), ("x", .int 5)]

/-- Document `F3 = {seed: 3, x: 9}` from the spec's chain example. -/
def specF3 : JSON := .obj [("seed", .int 3), ("x", .int 9)]

/-- A tree whose `version` and `last_node_id` values are 1. -/
def verTreeA : JSON := .obj [("version", .int 1), ("last_node_id", .int 1), ("x", .int 5)]

/-- The same tree with `version` and `last_node_id` changed to 2. -/
def verTreeB : JSON := .obj [("version", .int 2), ("last_node_id", .int 2), ("x", .int 5)]

/-- A `widgets_values` sequence holding a negative number followed by a
control word. -/
def negWidgetsTree : JSON := .obj [("widgets_values", .arr [.int (-5), .str "randomize"])]

/-- Tree `{"a": [5]}`: flattens to the single pair `("a[0]", 5)`. -/
def collideTreeA : JSON := .obj [("a", .arr [.int 5])]

/-- Tree `{"a[0]": 5}`: a different tree with the same flattened pair. -/
def collideTreeB : JSON := .obj [("a[0]", .int 5)]

/-! ### Lemmas -/

/-! ### Size lemmas for the normalizer -/

theorem jsize_pos : ∀ t : JSON, 1 ≤ jsize t := by
  intro t
  cases t <;> simp [jsize]

theorem jsize_le_of_mem {kvs : List (String × JSON)} {kv : String × JSON}
    (h : kv ∈ kvs) : jsize kv.2 ≤ jsizeKVs kvs := by
  induction kvs with
  | nil => cases h
  | cons a r ih =>
    rcases List.mem_cons.mp h with h | h
    · subst h; simp [jsizeKVs]; omega
    · have := ih h; simp [jsizeKVs]; omega

theorem jsize_le_of_mem_list {l : List JSON} {v : JSON} (h : v ∈ l) :
    jsize v ≤ jsizeList l := by
  induction l with
  | nil => cases h
  | cons a r ih =>
    rcases List.mem_cons.mp h with h | h
    · subst h; simp [jsizeList]; omega
    · have := ih h; simp [jsizeList]; omega

theorem jsizeKVs_map_le {kvs : List (String × JSON)} {f : String × JSON → String × JSON}
    (h : ∀ kv ∈ kvs, jsize (f kv).2 ≤ jsize kv.2) : jsizeKVs (kvs.map f) ≤ jsizeKVs kvs := by
  induction kvs with
  | nil => simp [jsizeKVs]
  | cons a r ih =>
    have h1 := h a (List.mem_cons_self a r)
    have h2 := ih fun kv hm => h kv (List.mem_cons_of_mem a hm)
    simp only [List.map_cons]
    show jsize (f a).2 + jsizeKVs (r.map f) + 1 ≤ jsize a.2 + jsizeKVs r + 1
    omega

theorem jsizeList_map_le {l : List JSON} {f : JSON → JSON}
    (h : ∀ v ∈ l, jsize (f v) ≤ jsize v) : jsizeList (l.map f) ≤ jsizeList l := by
  induction l with
  | nil => simp [jsizeList]
  | cons a r ih =>
    have h1 := h a (List.mem_cons_self a r)
    have h2 := ih fun v hm => h v (List.mem_cons_of_mem a hm)
    simp only [List.map_cons]
    show jsize (f a) + jsizeList (r.map f) + 1 ≤ jsize a + jsizeList r + 1
    omega

theorem jsize_seedStep_le (k : String) (v : JSON) : jsize (seedStep k v) ≤ jsize v := by
  unfold seedStep
  split
  · exact jsize_pos v
  · exact le_refl _

theorem jsize_controlStep_le (k : String) (v : JSON) : jsize (controlStep k v) ≤ jsize v := by
  unfold controlStep
  split
  · exact jsize_pos v
  · exact le_refl _

theorem jsize_eq_one_of_pyIsIntGtNeg1 {v : JSON} (h : pyIsIntGtNeg1 v = true) :
    jsize v = 1 := by
  cases v <;> simp_all [pyIsIntGtNeg1, jsize]

theorem jsize_eq_one_of_isControlWord {v : JSON} (h : isControlWord v = true) :
    jsize v = 1 := by
  cases v <;> simp_all [isControlWord, jsize]

theorem jsizeList_normWidgets_le : ∀ l : List JSON, jsizeList (normWidgets l) ≤ jsizeList l := by
  intro l
  induction l using normWidgets.induct with
  | case1 => simp [normWidgets]
  | case2 v hv => simp [normWidgets, hv]
  | case3 v hv hc =>
    have h1 := jsize_eq_one_of_isControlWord hc
    simp [normWidgets, hv, hc, jsizeList, jsize, h1]
  | case4 v hv hc => simp [normWidgets, hv, hc]
  | case5 v next rest2 hv hc ih =>
    have h1 := jsize_eq_one_of_pyIsIntGtNeg1 hv
    have h2 := jsize_eq_one_of_isControlWord hc
    simp [normWidgets, hv, hc, jsizeList, jsize, h1, h2]
    omega
  | case6 v next rest2 hv hc ih =>
    simp only [normWidgets, hv, hc, if_true, if_false, Bool.false_eq_true, if_neg, ite_true,
      ite_false, jsizeList] at ih ⊢
    simp [hv, hc, jsizeList] at ih ⊢
    omega
  | case7 v next rest2 hv hc ih =>
    have h1 := jsize_eq_one_of_isControlWord hc
    simp [hv, hc, jsizeList, jsize, h1, normWidgets] at ih ⊢
    omega
  | case8 v next rest2 hv hc ih =>
    simp [hv, hc, jsizeList, normWidgets] at ih ⊢
    omega

theorem jsize_widgetsStep_le (k : String) (v : JSON) : jsize (widgetsStep k v) ≤ jsize v := by
  unfold widgetsStep
  split
  · split
    · rename_i l
      show jsizeList (normWidgets l) + 1 ≤ jsizeList l + 1
      have := jsizeList_normWidgets_le l
      omega
    · exact le_refl _
  · exact le_refl _

theorem jsizeKVs_passes_le (kvs : List (String × JSON)) :
    jsizeKVs (widgetsPass (controlPass (seedPass kvs))) ≤ jsizeKVs kvs := by
  calc jsizeKVs (widgetsPass (controlPass (seedPass kvs)))
      ≤ jsizeKVs (controlPass (seedPass kvs)) :=
        jsizeKVs_map_le fun kv _ => jsize_widgetsStep_le kv.1 kv.2
    _ ≤ jsizeKVs (seedPass kvs) :=
        jsizeKVs_map_le fun kv _ => jsize_controlStep_le kv.1 kv.2
    _ ≤ jsizeKVs kvs :=
        jsizeKVs_map_le fun kv _ => jsize_seedStep_le kv.1 kv.2

theorem jsize_normGo_le : ∀ (f : Nat) (t : JSON), jsize (normGo f t) ≤ jsize t := by
  intro f
  induction f with
  | zero => intro t; exact le_refl _
  | succ f ih =>
    intro t
    cases t with
    | obj kvs =>
      show jsize (JSON.obj _) ≤ jsize (JSON.obj kvs)
      simp only [normGo, jsize]
      have h4 : jsizeKVs ((widgetsPass (controlPass (seedPass kvs))).map fun kv =>
          if kv.1 == "inputs" && pyIsDict kv.2 then (kv.1, normGo f kv.2) else kv) ≤
          jsizeKVs (widgetsPass (controlPass (seedPass kvs))) := by
        apply jsizeKVs_map_le
        intro kv _
        split
        · exact ih kv.2
        · exact le_refl _
      have h5 : jsizeKVs (((widgetsPass (controlPass (seedPass kvs))).map fun kv =>
          if kv.1 == "inputs" && pyIsDict kv.2 then (kv.1, normGo f kv.2) else kv).map fun kv =>
            if excluded_keys.contains kv.1 then kv
            else if pyIsContainer kv.2 then (kv.1, normGo f kv.2) else kv) ≤
          jsizeKVs ((widgetsPass (controlPass (seedPass kvs))).map fun kv =>
            if kv.1 == "inputs" && pyIsDict kv.2 then (kv.1, normGo f kv.2) else kv) := by
        apply jsizeKVs_map_le
        intro kv _
        split
        · exact le_refl _
        · split
          · exact ih kv.2
          · exact le_refl _
      have h3 := jsizeKVs_passes_le kvs
      omega
    | arr l =>
      show jsize (JSON.arr _) ≤ jsize (JSON.arr l)
      simp only [normGo, jsize]
      have := jsizeList_map_le (l := l) (f := normGo f) fun v _ => ih v
      omega
    | str s => exact le_refl _
    | int n => exact le_refl _
    | float q => exact le_refl _
    | bool b => exact le_refl _
    | null => exact le_refl _

/-! ### Fuel irrelevance and unfolding equations for the normalizer -/

theorem normGo_fuel : ∀ (f g : Nat) (t : JSON), jsize t ≤ f → jsize t ≤ g →
    normGo f t = normGo g t := by
  intro f
  induction f with
  | zero =>
    intro g t hf _
    have := jsize_pos t
    omega
  | succ f ih =>
    intro g t hf hg
    cases g with
    | zero =>
      have := jsize_pos t
      omega
    | succ g =>
      cases t with
      | obj kvs =>
        have hsz : jsize (JSON.obj kvs) = jsizeKVs kvs + 1 := rfl
        simp only [normGo]
        have hkvs3 := jsizeKVs_passes_le kvs
        have h4 : ((widgetsPass (controlPass (seedPass kvs))).map fun kv =>
            if kv.1 == "inputs" && pyIsDict kv.2 then (kv.1, normGo f kv.2) else kv) =
            ((widgetsPass (controlPass (seedPass kvs))).map fun kv =>
            if kv.1 == "inputs" && pyIsDict kv.2 then (kv.1, normGo g kv.2) else kv) := by
          apply List.map_congr_left
          intro kv hm
          have hb := jsize_le_of_mem hm
          split
          · rw [ih g kv.2 (by omega) (by omega)]
          · rfl
        rw [h4]
        congr 1
        apply List.map_congr_left
        intro kv hm
        have hb : jsize kv.2 ≤ jsizeKVs ((widgetsPass (controlPass (seedPass kvs))).map
            fun kv => if kv.1 == "inputs" && pyIsDict kv.2 then (kv.1, normGo g kv.2) else kv) :=
          jsize_le_of_mem hm
        have hmap : jsizeKVs ((widgetsPass (controlPass (seedPass kvs))).map
            fun kv => if kv.1 == "inputs" && pyIsDict kv.2 then (kv.1, normGo g kv.2) else kv) ≤
            jsizeKVs (widgetsPass (controlPass (seedPass kvs))) := by
          apply jsizeKVs_map_le
          intro kv _
          split
          · exact jsize_normGo_le g kv.2
          · exact le_refl _
        split
        · rfl
        · split
          · rw [ih g kv.2 (by omega) (by omega)]
          · rfl
      | arr l =>
        have hsz : jsize (JSON.arr l) = jsizeList l + 1 := rfl
        simp only [normGo]
        congr 1
        apply List.map_congr_left
        intro v hm
        have hb := jsize_le_of_mem_list hm
        exact ih g v (by omega) (by omega)
      | str s => rfl
      | int n => rfl
      | float q => rfl
      | bool b => rfl
      | null => rfl

theorem normalize_obj (kvs : List (String × JSON)) :
    normalize_workflow_seeds (JSON.obj kvs) =
      JSON.obj (recursePass (inputsPass (widgetsPass (controlPass (seedPass kvs))))) := by
  show normGo (jsize (JSON.obj kvs)) (JSON.obj kvs) = _
  have hsz : jsize (JSON.obj kvs) = jsizeKVs kvs + 1 := rfl
  rw [hsz]
  simp only [normGo]
  have hkvs3 := jsizeKVs_passes_le kvs
  have h4 : ((widgetsPass (controlPass (seedPass kvs))).map fun kv =>
      if kv.1 == "inputs" && pyIsDict kv.2 then (kv.1, normGo (jsizeKVs kvs) kv.2) else kv) =
      inputsPass (widgetsPass (controlPass (seedPass kvs))) := by
    apply List.map_congr_left
    intro kv hm
    have hb := jsize_le_of_mem hm
    simp only [inputsStep]
    split
    · rw [normGo_fuel (jsizeKVs kvs) (jsize kv.2) kv.2 (by omega) (le_refl _)]
      rfl
    · rfl
  rw [h4]
  congr 1
  apply List.map_congr_left
  intro kv hm
  have hb : jsize kv.2 ≤ jsizeKVs (inputsPass (widgetsPass (controlPass (seedPass kvs)))) :=
    jsize_le_of_mem hm
  have hmap : jsizeKVs (inputsPass (widgetsPass (controlPass (seedPass kvs)))) ≤
      jsizeKVs (widgetsPass (controlPass (seedPass kvs))) := by
    apply jsizeKVs_map_le
    intro kv _
    simp only [inputsStep]
    split
    · exact jsize_normGo_le _ kv.2
    · exact le_refl _
  simp only [recurseStep]
  split
  · rfl
  · split
    · rw [normGo_fuel (jsizeKVs kvs) (jsize kv.2) kv.2 (by omega) (le_refl _)]
      rfl
    · rfl

theorem normalize_arr (l : List JSON) :
    normalize_workflow_seeds (JSON.arr l) = JSON.arr (l.map normalize_workflow_seeds) := by
  show normGo (jsize (JSON.arr l)) (JSON.arr l) = _
  have hsz : jsize (JSON.arr l) = jsizeList l + 1 := rfl
  rw [hsz]
  simp only [normGo]
  congr 1
  apply List.map_congr_left
  intro v hm
  have hb := jsize_le_of_mem_list hm
  exact normGo_fuel (jsizeList l) (jsize v) v (by omega) (le_refl _)

theorem normalize_str (s : String) : normalize_workflow_seeds (JSON.str s) = JSON.str s := rfl

theorem normalize_int (n : Int) : normalize_workflow_seeds (JSON.int n) = JSON.int n := rfl

theorem normalize_float (q : ℚ) : normalize_workflow_seeds (JSON.float q) = JSON.float q := rfl

theorem normalize_bool (b : Bool) : normalize_workflow_seeds (JSON.bool b) = JSON.bool b := rfl

theorem normalize_null : normalize_workflow_seeds JSON.null = JSON.null := rfl

theorem normalize_obj_entry (kvs : List (String × JSON)) :
    normalize_workflow_seeds (JSON.obj kvs) =
      JSON.obj (kvs.map fun kv => (kv.1, entryNorm kv.1 kv.2)) := by
  rw [normalize_obj]
  simp only [recursePass, inputsPass, widgetsPass, controlPass, seedPass, List.map_map]
  rfl

theorem jsize_normalize_le (t : JSON) : jsize (normalize_workflow_seeds t) ≤ jsize t :=
  jsize_normGo_le _ t

theorem jsizeKVs_perm {l1 l2 : List (String × JSON)} (h : l1.Perm l2) :
    jsizeKVs l1 = jsizeKVs l2 := by
  induction h with
  | nil => rfl
  | cons x _ ih => simp [jsizeKVs, ih]
  | swap x y l => simp [jsizeKVs]; omega
  | trans _ _ ih1 ih2 => omega

theorem jsizeKVs_sortByKey (kvs : List (String × JSON)) :
    jsizeKVs (sortByKey kvs) = jsizeKVs kvs :=
  jsizeKVs_perm (List.perm_insertionSort _ kvs)

theorem flattenGo_fuel : ∀ f g : Nat,
    (∀ t p, jsize t ≤ f → jsize t ≤ g → flattenGo f t p = flattenGo g t p) ∧
    (∀ kvs p, jsizeKVs kvs ≤ f → jsizeKVs kvs ≤ g →
      flattenKVsGo f kvs p = flattenKVsGo g kvs p) ∧
    (∀ l p i, jsizeList l ≤ f → jsizeList l ≤ g →
      flattenListGo f l p i = flattenListGo g l p i) := by
  intro f
  induction f with
  | zero =>
    intro g
    refine ⟨fun t p hf _ => absurd hf (by have := jsize_pos t; omega), ?_, ?_⟩
    · intro kvs p hf hg
      cases kvs with
      | nil => cases g <;> rfl
      | cons a r => exact absurd hf (by cases a; simp [jsizeKVs])
    · intro l p i hf hg
      cases l with
      | nil => cases g <;> rfl
      | cons a r => exact absurd hf (by simp [jsizeList])
  | succ f ih =>
    intro g
    cases g with
    | zero =>
      refine ⟨fun t p _ hg => absurd hg (by have := jsize_pos t; omega), ?_, ?_⟩
      · intro kvs p hf hg
        cases kvs with
        | nil => rfl
        | cons a r => exact absurd hg (by cases a; simp [jsizeKVs])
      · intro l p i hf hg
        cases l with
        | nil => rfl
        | cons a r => exact absurd hg (by simp [jsizeList])
    | succ g =>
      refine ⟨?_, ?_, ?_⟩
      · intro t p hf hg
        cases t with
        | obj kvs =>
          simp only [flattenGo]
          have hsz : jsize (JSON.obj kvs) = jsizeKVs kvs + 1 := rfl
          have hq := jsizeKVs_sortByKey kvs
          exact (ih g).2.1 (sortByKey kvs) p (by omega) (by omega)
        | arr l =>
          simp only [flattenGo]
          have hsz : jsize (JSON.arr l) = jsizeList l + 1 := rfl
          exact (ih g).2.2 l p 0 (by omega) (by omega)
        | str s => rfl
        | int n => rfl
        | float q => rfl
        | bool b => rfl
        | null => rfl
      · intro kvs p hf hg
        cases kvs with
        | nil => rfl
        | cons a r =>
          obtain ⟨k, v⟩ := a
          have hsz : jsizeKVs ((k, v) :: r) = jsize v + jsizeKVs r + 1 := rfl
          simp only [flattenKVsGo]
          congr 1
          · split
            · exact (ih g).1 v _ (by omega) (by omega)
            · rfl
          · exact (ih g).2.1 r p (by omega) (by omega)
      · intro l p i hf hg
        cases l with
        | nil => rfl
        | cons v r =>
          have hsz : jsizeList (v :: r) = jsize v + jsizeList r + 1 := rfl
          simp only [flattenListGo]
          congr 1
          · split
            · exact (ih g).1 v _ (by omega) (by omega)
            · rfl
          · exact (ih g).2.2 r p (i + 1) (by omega) (by omega)

theorem flattenKVsGo_eq : ∀ (kvs : List (String × JSON)) (f : Nat) (p : String),
    jsizeKVs kvs ≤ f → flattenKVsGo f kvs p = flattenKVsP kvs p := by
  intro kvs
  induction kvs with
  | nil =>
    intro f p _
    cases f <;> rfl
  | cons a r ih =>
    intro f p hf
    obtain ⟨k, v⟩ := a
    have hsz : jsizeKVs ((k, v) :: r) = jsize v + jsizeKVs r + 1 := rfl
    cases f with
    | zero => omega
    | succ f =>
      simp only [flattenKVsGo, flattenKVsP]
      congr 1
      · split
        · exact (flattenGo_fuel f (jsize v)).1 v _ (by omega) (le_refl _)
        · rfl
      · exact ih f p (by omega)

theorem flattenListGo_eq : ∀ (l : List JSON) (f : Nat) (p : String) (i : Nat),
    jsizeList l ≤ f → flattenListGo f l p i = flattenListP l p i := by
  intro l
  induction l with
  | nil =>
    intro f p i _
    cases f <;> rfl
  | cons v r ih =>
    intro f p i hf
    have hsz : jsizeList (v :: r) = jsize v + jsizeList r + 1 := rfl
    cases f with
    | zero => omega
    | succ f =>
      simp only [flattenListGo, flattenListP]
      congr 1
      · split
        · exact (flattenGo_fuel f (jsize v)).1 v _ (by omega) (le_refl _)
        · rfl
      · exact ih f p (i + 1) (by omega)

theorem flatten_obj (kvs : List (String × JSON)) (path : String) :
    flatten_json_to_paths (JSON.obj kvs) path = flattenKVsP (sortByKey kvs) path := by
  show flattenGo (jsizeKVs kvs + 1) (JSON.obj kvs) path = _
  simp only [flattenGo]
  exact flattenKVsGo_eq (sortByKey kvs) (jsizeKVs kvs) path (by rw [jsizeKVs_sortByKey])

theorem flatten_arr (l : List JSON) (path : String) :
    flatten_json_to_paths (JSON.arr l) path = flattenListP l path 0 := by
  show flattenGo (jsizeList l + 1) (JSON.arr l) path = _
  simp only [flattenGo]
  exact flattenListGo_eq l (jsizeList l) path 0 (le_refl _)

theorem flatten_str (s : String) (path : String) :
    flatten_json_to_paths (JSON.str s) path = [] := rfl

theorem flatten_int (n : Int) (path : String) :
    flatten_json_to_paths (JSON.int n) path = [] := rfl

theorem flatten_float (q : ℚ) (path : String) :
    flatten_json_to_paths (JSON.float q) path = [] := rfl

theorem flatten_bool (b : Bool) (path : String) :
    flatten_json_to_paths (JSON.bool b) path = [] := rfl

theorem flatten_null (path : String) :
    flatten_json_to_paths JSON.null path = [] := rfl

/-! ### The difference metric on identical and on the example documents -/

theorem diff_self_eq_zero (A : JSON) : calculate_json_difference_percentage A A = 0 := by
  simp only [calculate_json_difference_percentage, Finset.sdiff_self, Finset.card_empty,
    Finset.union_self]
  split
  · rfl
  · norm_num

theorem diff_specF2_specF1 : calculate_json_difference_percentage specF2 specF1 = 0 := by
  have h : pathSet specF2 = pathSet specF1 := by decide
  simp only [calculate_json_difference_percentage, h, Finset.sdiff_self, Finset.card_empty,
    Finset.union_self]
  norm_num

theorem diff_specF3_specF1 : calculate_json_difference_percentage specF3 specF1 = 200 / 3 := by
  have h1 : (pathSet specF3 \ pathSet specF1).card = 1 := by decide
  have h2 : (pathSet specF1 \ pathSet specF3).card = 1 := by decide
  have h3 : (pathSet specF3 ∪ pathSet specF1).card = 3 := by decide
  simp only [calculate_json_difference_percentage, h1, h2, h3]
  norm_num

/-! ### Claims -/

/-- C9: `difference_percent(A, A)` returns exactly 0 for every tree `A`,
including the empty mapping. -/
theorem C9_diff_self (A : JSON) :
    calculate_json_difference_percentage A A = 0 ∧
    calculate_json_difference_percentage (JSON.obj []) (JSON.obj []) = 0 :=
  ⟨diff_self_eq_zero A, diff_self_eq_zero (JSON.obj [])⟩

/-- C2 counterexample: `difference_percent(F3, F1)` is not 50 — the metric is
symmetric difference over union, which gives 2/3, not 1/2. -/
theorem C2_counterexample : calculate_json_difference_percentage specF3 specF1 ≠ 50 := by
  rw [diff_specF3_specF1]
  norm_num

/-- C2 amended: `difference_percent(F3, F1)` is exactly 200/3 (≈ 66.67): the
two differing `x` pairs over a union of three pairs.  With threshold 0 the
decision for F3 is still KEEP and the baseline becomes F3. -/
theorem C2_amended :
    calculate_json_difference_percentage specF3 specF1 = 200 / 3 ∧
    (processFile (some 0) true ⟨specF1, some "F1", 0, 0⟩ "F3" specF3).2 =
      some (200 / 3, FileAction.kept) ∧
    (processFile (some 0) true ⟨specF1, some "F1", 0, 0⟩ "F3" specF3).1.previous_json_data =
      specF3 := by
  refine ⟨diff_specF3_specF1, ?_, ?_⟩ <;>
    · rw [processFile, if_neg (by decide)]
      simp only [diff_specF3_specF1]
      norm_num
      try decide

/-- C3: with threshold 0, a document at distance exactly 0 from the baseline
is NOT deleted: the deletion test is `percentage_diff < 0`, which never holds,
so the action is KEPT, the deletion counter stays 0, and the baseline even
moves to the duplicate — the code contradicts its own docstring (lines 113 to
114 and 204: "Set to 0 to delete exact duplicates"). -/
theorem C3_threshold_zero_keeps_duplicates :
    calculate_json_difference_percentage specF2 specF1 = 0 ∧
    (processFile (some 0) true ⟨specF1, some "F1", 0, 0⟩ "F2" specF2).2 =
      some (0, FileAction.kept) ∧
    (processFile (some 0) true ⟨specF1, some "F1", 0, 0⟩ "F2" specF2).1 =
      ⟨specF2, some "F2", 0, 1⟩ := by
  refine ⟨diff_specF2_specF1, ?_, ?_⟩ <;>
    · rw [processFile, if_neg (by decide)]
      simp only [diff_specF2_specF1]
      norm_num
      try decide

theorem flatten_scalar_empty {t : JSON} (h : pyIsContainer t = false) (p : String) :
    flatten_json_to_paths t p = [] := by
  cases t <;> simp_all [pyIsContainer] <;> rfl

theorem pathSet_scalar {t : JSON} (h : pyIsContainer t = false) : pathSet t = ∅ := by
  cases t <;> simp_all [pyIsContainer, pathSet] <;> rfl

theorem diff_scalar_zero {s1 s2 : JSON} (h1 : pyIsContainer s1 = false)
    (h2 : pyIsContainer s2 = false) :
    calculate_json_difference_percentage s2 s1 = 0 := by
  simp [calculate_json_difference_percentage, pathSet_scalar h1, pathSet_scalar h2]

/-- C5: with any supplied threshold `T`, whenever the loop compares a document
at all (so a report `some (d, action)` is produced), a distance of exactly `T`
gets action KEPT, and any non-KEPT action implies the distance was strictly
below `T` (the deletion test on line 166 is a strict `<`). -/
theorem C5_exact_threshold_kept (T : ℚ) (ok : Bool) (st : DedupState)
    (fn : String) (doc : JSON) (d : ℚ) (a : FileAction)
    (hrep : (processFile (some T) ok st fn doc).2 = some (d, a)) :
    (d = T → a = FileAction.kept) ∧ (a ≠ FileAction.kept → d < T) := by
  by_cases hnull : st.previous_json_data = JSON.null
  · rw [processFile, if_pos hnull] at hrep
    cases hrep
  · rw [processFile, if_neg hnull] at hrep
    simp only [Option.some.injEq, Prod.mk.injEq] at hrep
    obtain ⟨hd, ha⟩ := hrep
    subst hd
    subst ha
    constructor
    · intro hdT
      rw [hdT, if_neg (lt_irrefl T)]
    · intro hane
      rcases lt_or_le
        (calculate_json_difference_percentage doc st.previous_json_data) T with h | h
      · exact h
      · exact absurd (if_neg (not_lt.mpr h)) hane

theorem C5_witness :
    ((0 : ℚ) = 0 → FileAction.kept = FileAction.kept) ∧
    (FileAction.kept ≠ FileAction.kept → (0 : ℚ) < 0) :=
  C5_exact_threshold_kept 0 true ⟨specF1, some "F1", 0, 0⟩ "F2" specF2
    0 FileAction.kept
    (by rw [processFile, if_neg (by decide)]
        simp only [diff_specF2_specF1]
        norm_num)

/-- C6: whenever the loop compares a document (a report `some (d, action)` is
produced), the baseline moves to the current document exactly when the action
is KEPT; on DELETED and on DELETE_ERROR (a failed `os.remove`) it is
unchanged, and the loop goes on regardless (`processFile` is total). -/
theorem C6_baseline_only_on_keep (T : Option ℚ) (ok : Bool) (st : DedupState)
    (fn : String) (doc : JSON) (d : ℚ) (a : FileAction)
    (hrep : (processFile T ok st fn doc).2 = some (d, a)) :
    (processFile T ok st fn doc).1.previous_json_data =
      if a = FileAction.kept then doc else st.previous_json_data := by
  by_cases hnull : st.previous_json_data = JSON.null
  · rw [processFile, if_pos hnull] at hrep
    cases hrep
  · simp only [processFile, if_neg hnull, Option.some.injEq, Prod.mk.injEq] at hrep ⊢
    obtain ⟨hd, ha⟩ := hrep
    subst ha
    split_ifs with h <;> simp

theorem C6_witness :
    (processFile (some 100) true ⟨specF1, some "F1", 0, 0⟩ "F2" specF2).1.previous_json_data =
      if FileAction.deleted = FileAction.kept then specF2
      else (⟨specF1, some "F1", 0, 0⟩ : DedupState).previous_json_data :=
  C6_baseline_only_on_keep (some 100) true ⟨specF1, some "F1", 0, 0⟩ "F2" specF2
    0 FileAction.deleted
    (by rw [processFile, if_neg (by decide)]
        simp only [diff_specF2_specF1]
        norm_num)

/-- C10 counterexample: the claim fails when the earlier scalar-rooted
document is `null`.  Running the engine on `[a.json = null, b.json = 7]` with
threshold 5 deletes nothing: the kept null document loaded as Python `None`,
so line 154 treats `b.json` as an initial file again — it is kept without any
comparison (`total_compared` and `deleted_count` both stay 0). -/
theorem C10_counterexample :
    pyIsContainer JSON.null = false ∧ pyIsContainer (JSON.int 7) = false ∧
    ((0 : ℚ) < 5) ∧
    compare_and_delete_jsons (some 5)
        [("a.json", JSON.null, true), ("b.json", JSON.int 7, true)] =
      ⟨JSON.int 7, some "b.json", 0, 0⟩ ∧
    (processFile (some 5) true ⟨JSON.null, some "a.json", 0, 0⟩ "b.json"
        (JSON.int 7)).2 = none := by
  refine ⟨rfl, rfl, by decide, ?_, ?_⟩ <;> decide

/-- C10 amended: a scalar-rooted document flattens to the empty path list and
any two scalar-rooted documents are at distance 0; with a positive threshold
the later one is deleted provided the retained earlier document is not
`null` — a retained null document is Python `None`, so the later file is
treated as initial and kept without comparison. -/
theorem C10_amended (s1 s2 : JSON) (h1 : pyIsContainer s1 = false)
    (h2 : pyIsContainer s2 = false) (hnn : s1 ≠ JSON.null)
    (T : ℚ) (hT : 0 < T) (st : DedupState)
    (fn : String) (hb : st.previous_json_data = s1) :
    flatten_json_to_paths s1 "" = [] ∧ flatten_json_to_paths s2 "" = [] ∧
    calculate_json_difference_percentage s2 s1 = 0 ∧
    (processFile (some T) true st fn s2).2 = some (0, FileAction.deleted) := by
  refine ⟨flatten_scalar_empty h1 "", flatten_scalar_empty h2 "",
    diff_scalar_zero h1 h2, ?_⟩
  rw [processFile, if_neg (by rw [hb]; exact hnn)]
  simp only [hb, diff_scalar_zero h1 h2]
  rw [if_pos hT]
  simp

theorem C10_witness :
    (JSON.int 7 ≠ JSON.null) ∧ ((0 : ℚ) < 5) ∧
    (flatten_json_to_paths (JSON.int 7) "" = [] ∧
    flatten_json_to_paths (JSON.str "hi") "" = [] ∧
    calculate_json_difference_percentage (JSON.str "hi") (JSON.int 7) = 0 ∧
    (processFile (some 5) true ⟨JSON.int 7, some "a", 0, 0⟩ "b" (JSON.str "hi")).2 =
      some (0, FileAction.deleted)) :=
  ⟨by decide, by decide,
    C10_amended (JSON.int 7) (JSON.str "hi") rfl rfl (by decide) 5 (by decide)
      ⟨JSON.int 7, some "a", 0, 0⟩ "b" rfl⟩

/-- C4 counterexample: a negative number in `widgets_values` followed by a
control word is NOT rewritten to 0 (the code requires `isinstance(value, int)
and value > -1`); only the control word is rewritten to `"fixed"`. -/
theorem C4_counterexample :
    normalize_workflow_seeds negWidgetsTree =
      JSON.obj [("widgets_values", JSON.arr [JSON.int (-5), JSON.str "fixed"])] ∧
    normalize_workflow_seeds negWidgetsTree ≠
      JSON.obj [("widgets_values", JSON.arr [JSON.int 0, JSON.str "fixed"])] := by
  constructor <;> decide

/-- C4 amended: in a two-element `widgets_values` pair `(v, control-word)`,
an integer `v` is rewritten to 0 exactly when `v > -1`; a negative integer and
a float stay unchanged, while the following control word always becomes
`"fixed"` (via the standalone string rule). -/
theorem C4_amended (n : Int) (s : String)
    (hs : control_words.contains (pyLower s) = true) :
    normalize_workflow_seeds
        (JSON.obj [("widgets_values", JSON.arr [JSON.int n, JSON.str s])]) =
      JSON.obj [("widgets_values",
        JSON.arr [if -1 < n then JSON.int 0 else JSON.int n, JSON.str "fixed"])] ∧
    (∀ q : ℚ, normalize_workflow_seeds
        (JSON.obj [("widgets_values", JSON.arr [JSON.float q, JSON.str s])]) =
      JSON.obj [("widgets_values", JSON.arr [JSON.float q, JSON.str "fixed"])]) := by
  constructor
  · rw [normalize_obj_entry]
    simp only [List.map_cons, List.map_nil, entryNorm, seedStep, controlStep, widgetsStep,
      inputsStep, recurseStep, seed_keys, control_keys_to_normalize, excluded_keys]
    norm_num [pyIsNumeric, pyIsStr, pyIsDict, pyIsContainer]
    by_cases hn : -1 < n
    · simp only [normWidgets, pyIsIntGtNeg1, hn, isControlWord, hs,
        normalize_arr, List.map_cons, List.map_nil, normalize_int, normalize_str]
      simp only [hn, if_true, decide_eq_true_eq]
      simp [hn]
      exact ⟨rfl, rfl⟩
    · simp only [normWidgets, pyIsIntGtNeg1, hn, isControlWord, hs,
        normalize_arr, List.map_cons, List.map_nil, normalize_int, normalize_str]
      simp [hn]
      exact ⟨rfl, rfl⟩
  · intro q
    rw [normalize_obj_entry]
    simp only [List.map_cons, List.map_nil, entryNorm, seedStep, controlStep, widgetsStep,
      inputsStep, recurseStep, seed_keys, control_keys_to_normalize, excluded_keys]
    norm_num [pyIsNumeric, pyIsStr, pyIsDict, pyIsContainer]
    simp only [normWidgets, pyIsIntGtNeg1, isControlWord, hs, normalize_arr, List.map_cons,
      List.map_nil, normalize_float, normalize_str]
    simp
    exact ⟨rfl, rfl⟩

theorem C4_witness :
    control_words.contains (pyLower "RANDOMIZE") = true ∧
    normalize_workflow_seeds
        (JSON.obj [("widgets_values", JSON.arr [JSON.int 123456, JSON.str "RANDOMIZE"])]) =
      JSON.obj [("widgets_values",
        JSON.arr [if -1 < (123456 : Int) then JSON.int 0 else JSON.int 123456,
          JSON.str "fixed"])] :=
  ⟨by decide, (C4_amended 123456 "RANDOMIZE" (by decide)).1⟩

/-- C1 counterexample: two trees identical except for their scalar `version`
and `last_node_id` values are at distance 80, not 0 — those keys are excluded
only from the normalizer's recursion, but their values still appear in the
flattened path sets. -/
theorem C1_counterexample :
    calculate_json_difference_percentage verTreeA verTreeB ≠ 0 ∧
    calculate_json_difference_percentage verTreeA verTreeB = 80 := by
  have h1 : (pathSet verTreeA \ pathSet verTreeB).card = 2 := by decide
  have h2 : (pathSet verTreeB \ pathSet verTreeA).card = 2 := by decide
  have h3 : (pathSet verTreeA ∪ pathSet verTreeB).card = 5 := by decide
  have heq : calculate_json_difference_percentage verTreeA verTreeB = 80 := by
    simp only [calculate_json_difference_percentage, h1, h2, h3]
    norm_num
  exact ⟨by rw [heq]; norm_num, heq⟩

theorem C1_pathSet_eq (a c : Int) :
    pathSet (JSON.obj [("version", JSON.int a), ("last_node_id", JSON.int c),
        ("x", JSON.int 5)]) =
      {("last_node_id", JSON.int c), ("version", JSON.int a), ("x", JSON.int 5)} := by
  have e1 : ∀ z : Int, entryNorm "version" (JSON.int z) = JSON.int z := by
    intro z
    simp [entryNorm, seedStep, controlStep, widgetsStep, inputsStep, recurseStep,
      show ("version") ∉ seed_keys from by decide,
      show ("version") ∉ control_keys_to_normalize from by decide,
      show ("version" : String) ≠ "widgets_values" from by decide,
      show ("version" : String) ≠ "inputs" from by decide,
      show ("version") ∈ excluded_keys from by decide,
      pyIsNumeric, pyIsStr, pyIsContainer]
  have e2 : ∀ z : Int, entryNorm "last_node_id" (JSON.int z) = JSON.int z := by
    intro z
    simp [entryNorm, seedStep, controlStep, widgetsStep, inputsStep, recurseStep,
      show ("last_node_id") ∉ seed_keys from by decide,
      show ("last_node_id") ∉ control_keys_to_normalize from by decide,
      show ("last_node_id" : String) ≠ "widgets_values" from by decide,
      show ("last_node_id" : String) ≠ "inputs" from by decide,
      show ("last_node_id") ∈ excluded_keys from by decide,
      pyIsNumeric, pyIsStr, pyIsContainer]
  have e3 : ∀ z : Int, entryNorm "x" (JSON.int z) = JSON.int z := by
    intro z
    simp [entryNorm, seedStep, controlStep, widgetsStep, inputsStep, recurseStep,
      show ("x") ∉ seed_keys from by decide,
      show ("x") ∉ control_keys_to_normalize from by decide,
      show ("x" : String) ≠ "widgets_values" from by decide,
      show ("x" : String) ≠ "inputs" from by decide,
      show ("x") ∉ excluded_keys from by decide,
      pyIsNumeric, pyIsStr, pyIsContainer]
  have hnorm : normalize_workflow_seeds (JSON.obj [("version", JSON.int a),
      ("last_node_id", JSON.int c), ("x", JSON.int 5)]) =
      JSON.obj [("version", JSON.int a), ("last_node_id", JSON.int c), ("x", JSON.int 5)] := by
    rw [normalize_obj_entry]
    simp only [List.map_cons, List.map_nil, e1, e2, e3]
  have hs1 : strLe "last_node_id" "x" = true := by decide
  have hs2 : strLe "version" "last_node_id" = false := by decide
  have hs3 : strLe "version" "x" = true := by decide
  have hsort : sortByKey [("version", JSON.int a), ("last_node_id", JSON.int c),
      ("x", JSON.int 5)] =
      [("last_node_id", JSON.int c), ("version", JSON.int a), ("x", JSON.int 5)] := by
    simp [sortByKey, List.insertionSort, List.orderedInsert, hs1, hs2, hs3]
  unfold pathSet
  rw [hnorm, flatten_obj, hsort]
  simp [flattenKVsP, pyIsContainer, flatten_int]

/-- C1 amended: `version` and `last_node_id` are excluded only from the
normalizer's recursion; their scalar values still reach the flattened path
sets, so two trees identical except for those two values are at distance 80
(4 differing pairs over a union of 5), never 0. -/
theorem C1_amended (a b c d : Int) (hab : a ≠ b) (hcd : c ≠ d) :
    calculate_json_difference_percentage
      (JSON.obj [("version", JSON.int a), ("last_node_id", JSON.int c), ("x", JSON.int 5)])
      (JSON.obj [("version", JSON.int b), ("last_node_id", JSON.int d), ("x", JSON.int 5)])
      = 80 := by
  have hA := C1_pathSet_eq a c
  have hB := C1_pathSet_eq b d
  have k1 : ("last_node_id" : String) ≠ "version" := by decide
  have k2 : ("last_node_id" : String) ≠ "x" := by decide
  have k3 : ("version" : String) ≠ "x" := by decide
  have hinter :
      ({("last_node_id", JSON.int c), ("version", JSON.int a), ("x", JSON.int 5)} :
          Finset (String × JSON)) ∩
        {("last_node_id", JSON.int d), ("version", JSON.int b), ("x", JSON.int 5)} =
      {("x", JSON.int 5)} := by
    ext p
    simp only [Finset.mem_inter, Finset.mem_insert, Finset.mem_singleton]
    constructor
    · rintro ⟨h | h | h, g | g | g⟩ <;> subst h <;>
        simp_all [Prod.mk.injEq, k1, k2, k3, JSON.int.injEq]
    · rintro rfl
      simp
  have hcA : ({("last_node_id", JSON.int c), ("version", JSON.int a), ("x", JSON.int 5)} :
      Finset (String × JSON)).card = 3 := by
    rw [Finset.card_insert_of_not_mem (by simp [Prod.mk.injEq, k1, k2]),
      Finset.card_insert_of_not_mem (by simp [Prod.mk.injEq, k3]),
      Finset.card_singleton]
  have hcB : ({("last_node_id", JSON.int d), ("version", JSON.int b), ("x", JSON.int 5)} :
      Finset (String × JSON)).card = 3 := by
    rw [Finset.card_insert_of_not_mem (by simp [Prod.mk.injEq, k1, k2]),
      Finset.card_insert_of_not_mem (by simp [Prod.mk.injEq, k3]),
      Finset.card_singleton]
  have hu : (({("last_node_id", JSON.int c), ("version", JSON.int a), ("x", JSON.int 5)} :
      Finset (String × JSON)) ∪
      {("last_node_id", JSON.int d), ("version", JSON.int b), ("x", JSON.int 5)}).card = 5 := by
    have := Finset.card_union_add_card_inter
      ({("last_node_id", JSON.int c), ("version", JSON.int a), ("x", JSON.int 5)} :
        Finset (String × JSON))
      {("last_node_id", JSON.int d), ("version", JSON.int b), ("x", JSON.int 5)}
    rw [hinter, hcA, hcB, Finset.card_singleton] at this
    omega
  have hs1 : (({("last_node_id", JSON.int c), ("version", JSON.int a), ("x", JSON.int 5)} :
      Finset (String × JSON)) \
      {("last_node_id", JSON.int d), ("version", JSON.int b), ("x", JSON.int 5)}).card = 2 := by
    have := Finset.card_sdiff_add_card_inter
      ({("last_node_id", JSON.int c), ("version", JSON.int a), ("x", JSON.int 5)} :
        Finset (String × JSON))
      {("last_node_id", JSON.int d), ("version", JSON.int b), ("x", JSON.int 5)}
    rw [hinter, hcA, Finset.card_singleton] at this
    omega
  have hs2 : (({("last_node_id", JSON.int d), ("version", JSON.int b), ("x", JSON.int 5)} :
      Finset (String × JSON)) \
      {("last_node_id", JSON.int c), ("version", JSON.int a), ("x", JSON.int 5)}).card = 2 := by
    have := Finset.card_sdiff_add_card_inter
      ({("last_node_id", JSON.int d), ("version", JSON.int b), ("x", JSON.int 5)} :
        Finset (String × JSON))
      {("last_node_id", JSON.int c), ("version", JSON.int a), ("x", JSON.int 5)}
    rw [Finset.inter_comm, hinter, hcB, Finset.card_singleton] at this
    omega
  simp only [calculate_json_difference_percentage, hA, hB, hs1, hs2, hu]
  norm_num

theorem C1_witness :
    (1 : Int) ≠ 2 ∧ (3 : Int) ≠ 4 ∧
    calculate_json_difference_percentage
      (JSON.obj [("version", JSON.int 1), ("last_node_id", JSON.int 3), ("x", JSON.int 5)])
      (JSON.obj [("version", JSON.int 2), ("last_node_id", JSON.int 4), ("x", JSON.int 5)])
      = 80 :=
  ⟨by decide, by decide, C1_amended 1 2 3 4 (by decide) (by decide)⟩

/-! ### Properties of the key order used by the flattener -/

theorem strLeChars_total : ∀ a b : List Char, strLeChars a b = true ∨ strLeChars b a = true := by
  intro a
  induction a with
  | nil => intro b; left; rfl
  | cons c cs ih =>
    intro b
    cases b with
    | nil => right; rfl
    | cons d ds =>
      rcases Nat.lt_trichotomy c.toNat d.toNat with h | h | h
      · left; simp [strLeChars, h]
      · rcases ih ds with h2 | h2
        · left; simp [strLeChars, h, h2]
        · right; simp [strLeChars, h, h2]
      · right; simp [strLeChars, h]

theorem strLeChars_trans : ∀ a b c : List Char, strLeChars a b = true →
    strLeChars b c = true → strLeChars a c = true := by
  intro a
  induction a with
  | nil => intros; rfl
  | cons x xs ih =>
    intro b c hab hbc
    cases b with
    | nil => simp [strLeChars] at hab
    | cons y ys =>
      cases c with
      | nil => simp [strLeChars] at hbc
      | cons z zs =>
        by_cases h1 : x.toNat < y.toNat <;> by_cases h2 : y.toNat < z.toNat
        · simp [strLeChars, Nat.lt_trans h1 h2]
        · by_cases h3 : y.toNat = z.toNat
          · simp [strLeChars, h3 ▸ h1]
          · simp [strLeChars, h2, h3] at hbc
        · by_cases h3 : x.toNat = y.toNat
          · simp [strLeChars, h3 ▸ h2]
          · simp [strLeChars, h1, h3] at hab
        · by_cases h3 : x.toNat = y.toNat
          · by_cases h4 : y.toNat = z.toNat
            · have h5 : x.toNat = z.toNat := h3.trans h4
              have hxy : strLeChars xs ys = true := by simp [strLeChars, h1, h3] at hab; exact hab
              have hyz : strLeChars ys zs = true := by simp [strLeChars, h2, h4] at hbc; exact hbc
              have h6 : ¬ x.toNat < z.toNat := by omega
              simp [strLeChars, h5, h6, ih ys zs hxy hyz]
            · simp [strLeChars, h2, h4] at hbc
          · simp [strLeChars, h1, h3] at hab

theorem strLeChars_antisymm : ∀ a b : List Char, strLeChars a b = true →
    strLeChars b a = true → a = b := by
  intro a
  induction a with
  | nil =>
    intro b _ hba
    cases b with
    | nil => rfl
    | cons d ds => simp [strLeChars] at hba
  | cons c cs ih =>
    intro b hab hba
    cases b with
    | nil => simp [strLeChars] at hab
    | cons d ds =>
      by_cases h1 : c.toNat < d.toNat
      · have h2 : ¬ d.toNat < c.toNat := by omega
        have h3 : ¬ d.toNat = c.toNat := by omega
        simp [strLeChars, h2, h3] at hba
      · by_cases h2 : c.toNat = d.toNat
        · have hcd : c = d := Char.ext (UInt32.toNat.inj h2)
          have hab2 : strLeChars cs ds = true := by simp [strLeChars, h1, h2] at hab; exact hab
          have h3 : ¬ d.toNat < c.toNat := by omega
          have hba2 : strLeChars ds cs = true := by
            simp [strLeChars, h3, h2.symm] at hba; exact hba
          rw [hcd, ih ds hab2 hba2]
        · simp [strLeChars, h1, h2] at hab

theorem strLe_antisymm {a b : String} (hab : strLe a b = true) (hba : strLe b a = true) :
    a = b := by
  have h := strLeChars_antisymm a.data b.data hab hba
  cases a; cases b; simp_all

theorem sorted_sortByKey (kvs : List (String × JSON)) :
    List.Sorted (fun a b : String × JSON => strLe a.1 b.1 = true) (sortByKey kvs) :=
  @List.sorted_insertionSort _ (fun a b : String × JSON => strLe a.1 b.1 = true) _
    ⟨fun a b => strLeChars_total a.1.data b.1.data⟩
    ⟨fun a b c => strLeChars_trans a.1.data b.1.data c.1.data⟩ kvs

/-- Two sorted association lists with the same entries and duplicate-free keys
are equal. -/
theorem sorted_nodup_perm_eq : ∀ {l1 l2 : List (String × JSON)}, l1.Perm l2 →
    List.Sorted (fun a b : String × JSON => strLe a.1 b.1 = true) l1 →
    List.Sorted (fun a b : String × JSON => strLe a.1 b.1 = true) l2 →
    (l1.map Prod.fst).Nodup → l1 = l2 := by
  intro l1
  induction l1 with
  | nil =>
    intro l2 hperm _ _ _
    exact (List.Perm.eq_nil hperm.symm).symm
  | cons x t1 ih =>
    intro l2 hperm hs1 hs2 hnd
    cases l2 with
    | nil => cases List.Perm.eq_nil hperm
    | cons y t2 =>
      have hxy : x = y := by
        have hxmem : x ∈ y :: t2 := hperm.mem_iff.mp (List.mem_cons_self x t1)
        rcases List.mem_cons.mp hxmem with h | hx2
        · exact h
        · have hymem : y ∈ x :: t1 := hperm.symm.mem_iff.mp (List.mem_cons_self y t2)
          rcases List.mem_cons.mp hymem with h | hy1
          · exact h.symm
          · exfalso
            have hr1 : strLe x.1 y.1 = true := List.rel_of_sorted_cons hs1 y hy1
            have hr2 : strLe y.1 x.1 = true := List.rel_of_sorted_cons hs2 x hx2
            have hk : x.1 = y.1 := strLe_antisymm hr1 hr2
            have : x.1 ∈ t1.map Prod.fst := by
              rw [hk]
              exact List.mem_map_of_mem Prod.fst hy1
            simp only [List.map_cons, List.nodup_cons] at hnd
            exact hnd.1 this
      subst hxy
      have ht : t1.Perm t2 := hperm.cons_inv
      have hnd2 : (t1.map Prod.fst).Nodup := by
        simp only [List.map_cons, List.nodup_cons] at hnd
        exact hnd.2
      rw [ih ht hs1.of_cons hs2.of_cons hnd2]

/-- C8 counterexample: the path encoding is not lossless.  `{"a": [5]}` and
`{"a[0]": 5}` are both normalization fixpoints, are different trees with their
single leaf at different locations, yet flatten to the same `(path, value)`
list, because a mapping key may itself contain path syntax. -/
theorem C8_counterexample :
    normalize_workflow_seeds collideTreeA = collideTreeA ∧
    normalize_workflow_seeds collideTreeB = collideTreeB ∧
    collideTreeA ≠ collideTreeB ∧
    flatten_json_to_paths collideTreeA "" = flatten_json_to_paths collideTreeB "" :=
  ⟨by decide, by decide, by decide, by decide⟩

/-- C8 amended: the flattening is order-independent — permuting the entries of
a mapping with duplicate-free keys does not change the emitted list at all
(key sorting canonicalizes the order) — but it is not injective: distinct
trees can share one path set when keys mimic the separator syntax. -/
theorem C8_amended (kvs1 kvs2 : List (String × JSON)) (hperm : kvs1.Perm kvs2)
    (hnd : (kvs1.map Prod.fst).Nodup) (path : String) :
    flatten_json_to_paths (JSON.obj kvs1) path = flatten_json_to_paths (JSON.obj kvs2) path := by
  rw [flatten_obj, flatten_obj]
  have hp : (sortByKey kvs1).Perm (sortByKey kvs2) :=
    (List.perm_insertionSort _ kvs1).trans (hperm.trans (List.perm_insertionSort _ kvs2).symm)
  have hn1 : ((sortByKey kvs1).map Prod.fst).Nodup :=
    (List.Perm.nodup_iff (List.Perm.map Prod.fst (List.perm_insertionSort _ kvs1))).mpr hnd
  rw [sorted_nodup_perm_eq hp (sorted_sortByKey kvs1) (sorted_sortByKey kvs2) hn1]

theorem C8_witness :
    ([(("b" : String), JSON.int 1), ("a", JSON.int 2)].Perm
      [(("a" : String), JSON.int 2), ("b", JSON.int 1)]) ∧
    (([(("b" : String), JSON.int 1), ("a", JSON.int 2)].map Prod.fst).Nodup) ∧
    flatten_json_to_paths (JSON.obj [("b", JSON.int 1), ("a", JSON.int 2)]) "" =
      flatten_json_to_paths (JSON.obj [("a", JSON.int 2), ("b", JSON.int 1)]) "" :=
  ⟨by decide, by decide, C8_amended _ _ (by decide) (by decide) ""⟩

/-! ### Idempotence of the normalizer -/

theorem normalize_scalar_id {v : JSON} (h : pyIsContainer v = false) :
    normalize_workflow_seeds v = v := by
  cases v <;> first | rfl | simp_all [pyIsContainer]

theorem pyIsNumeric_normalize (v : JSON) :
    pyIsNumeric (normalize_workflow_seeds v) = pyIsNumeric v := by
  cases v <;> simp [normalize_obj_entry, normalize_arr, normalize_str, normalize_int,
    normalize_float, normalize_bool, normalize_null, pyIsNumeric]

theorem pyIsStr_normalize (v : JSON) :
    pyIsStr (normalize_workflow_seeds v) = pyIsStr v := by
  cases v <;> simp [normalize_obj_entry, normalize_arr, normalize_str, normalize_int,
    normalize_float, normalize_bool, normalize_null, pyIsStr]

theorem pyIsDict_normalize (v : JSON) :
    pyIsDict (normalize_workflow_seeds v) = pyIsDict v := by
  cases v <;> simp [normalize_obj_entry, normalize_arr, normalize_str, normalize_int,
    normalize_float, normalize_bool, normalize_null, pyIsDict]

theorem pyIsContainer_normalize (v : JSON) :
    pyIsContainer (normalize_workflow_seeds v) = pyIsContainer v := by
  cases v <;> simp [normalize_obj_entry, normalize_arr, normalize_str, normalize_int,
    normalize_float, normalize_bool, normalize_null, pyIsContainer]

theorem pyIsIntGtNeg1_normalize (v : JSON) :
    pyIsIntGtNeg1 (normalize_workflow_seeds v) = pyIsIntGtNeg1 v := by
  cases v <;> simp [normalize_obj_entry, normalize_arr, normalize_str, normalize_int,
    normalize_float, normalize_bool, normalize_null, pyIsIntGtNeg1]

theorem isControlWord_normalize (v : JSON) :
    isControlWord (normalize_workflow_seeds v) = isControlWord v := by
  cases v <;> simp [normalize_obj_entry, normalize_arr, normalize_str, normalize_int,
    normalize_float, normalize_bool, normalize_null, isControlWord]

/-! Unfolding helpers for `normWidgets` on a cons cell. -/

theorem normWidgets_pair {v next : JSON} (rest2 : List JSON)
    (hv : pyIsIntGtNeg1 v = true) (hc : isControlWord next = true) :
    normWidgets (v :: next :: rest2) =
      JSON.int 0 :: JSON.str "fixed" :: normWidgets rest2 := by
  simp [normWidgets, hv, hc]

theorem normWidgets_intlike_noctl {v next : JSON} (rest2 : List JSON)
    (hv : pyIsIntGtNeg1 v = true) (hc : isControlWord next = false) :
    normWidgets (v :: next :: rest2) = v :: normWidgets (next :: rest2) := by
  simp [normWidgets, hv, hc]

theorem normWidgets_ctl_cons {v : JSON} (rest : List JSON)
    (hv : pyIsIntGtNeg1 v = false) (hc : isControlWord v = true) :
    normWidgets (v :: rest) = JSON.str "fixed" :: normWidgets rest := by
  cases rest <;> simp [normWidgets, hv, hc]

theorem normWidgets_other_cons {v : JSON} (rest : List JSON)
    (hv : pyIsIntGtNeg1 v = false) (hc : isControlWord v = false) :
    normWidgets (v :: rest) = v :: normWidgets rest := by
  cases rest <;> simp [normWidgets, hv, hc]

theorem normWidgets_cons_exists (v : JSON) (rest : List JSON)
    (hv : isControlWord v = false) :
    ∃ h t, normWidgets (v :: rest) = h :: t ∧ isControlWord h = false := by
  cases rest with
  | nil =>
    by_cases hint : pyIsIntGtNeg1 v = true
    · exact ⟨v, [], by simp [normWidgets, hint], hv⟩
    · exact ⟨v, [], by simp [normWidgets, hint, hv], hv⟩
  | cons next rest2 =>
    by_cases hint : pyIsIntGtNeg1 v = true
    · by_cases hc : isControlWord next = true
      · exact ⟨JSON.int 0, _, normWidgets_pair rest2 hint hc, by simp [isControlWord]⟩
      · exact ⟨v, _, normWidgets_intlike_noctl rest2 hint (by simpa using hc), hv⟩
    · exact ⟨v, _, normWidgets_other_cons (next :: rest2) (by simpa using hint) hv, hv⟩

theorem normWidgets_idem : ∀ l : List JSON, normWidgets (normWidgets l) = normWidgets l := by
  intro l
  induction l using normWidgets.induct with
  | case1 => rfl
  | case2 v hv => simp [normWidgets, hv]
  | case3 v hv hc => simp [normWidgets, hv, hc]; try decide
  | case4 v hv hc => simp [normWidgets, hv, hc]
  | case5 v next rest2 hv hc ih =>
    rw [normWidgets_pair rest2 hv hc,
      normWidgets_pair (normWidgets rest2) (by decide) (by decide), ih]
  | case6 v next rest2 hv hc ih =>
    rw [normWidgets_intlike_noctl rest2 hv (by simpa using hc)]
    obtain ⟨h, t, heq, hh⟩ := normWidgets_cons_exists next rest2 (by simpa using hc)
    rw [heq, normWidgets_intlike_noctl t hv hh, ← heq, ih]
  | case7 v next rest2 hv hc ih =>
    rw [normWidgets_ctl_cons (next :: rest2) (by simpa using hv) hc,
      normWidgets_ctl_cons (normWidgets (next :: rest2)) (by decide) (by decide), ih]
  | case8 v next rest2 hv hc ih =>
    rw [normWidgets_other_cons (next :: rest2) (by simpa using hv) (by simpa using hc),
      normWidgets_other_cons (normWidgets (next :: rest2)) (by simpa using hv)
        (by simpa using hc), ih]

theorem normWidgets_map_normalize : ∀ l : List JSON,
    normWidgets (l.map normalize_workflow_seeds) =
      (normWidgets l).map normalize_workflow_seeds := by
  intro l
  induction l using normWidgets.induct with
  | case1 => rfl
  | case2 v hv =>
    have e1 : normalize_workflow_seeds v = v :=
      normalize_scalar_id (by cases v <;> simp_all [pyIsIntGtNeg1, pyIsContainer])
    simp [normWidgets, e1, hv]
  | case3 v hv hc =>
    have e1 : normalize_workflow_seeds v = v :=
      normalize_scalar_id (by cases v <;> simp_all [isControlWord, pyIsContainer])
    simp [normWidgets, e1, hv, hc]
    exact (normalize_str "fixed").symm
  | case4 v hv hc =>
    simp only [List.map_cons, List.map_nil]
    rw [show normWidgets [normalize_workflow_seeds v] = [normalize_workflow_seeds v] from by
      simp [normWidgets, pyIsIntGtNeg1_normalize, isControlWord_normalize, hv, hc]]
    simp [normWidgets, hv, hc]
  | case5 v next rest2 hv hc ih =>
    have e1 : normalize_workflow_seeds v = v :=
      normalize_scalar_id (by cases v <;> simp_all [pyIsIntGtNeg1, pyIsContainer])
    have e2 : normalize_workflow_seeds next = next :=
      normalize_scalar_id (by cases next <;> simp_all [isControlWord, pyIsContainer])
    simp only [List.map_cons]
    rw [e1, e2, normWidgets_pair _ hv hc, normWidgets_pair rest2 hv hc]
    simp only [List.map_cons]
    rw [ih]
    rfl
  | case6 v next rest2 hv hc ih =>
    have e1 : normalize_workflow_seeds v = v :=
      normalize_scalar_id (by cases v <;> simp_all [pyIsIntGtNeg1, pyIsContainer])
    have ih2 := ih
    simp only [List.map_cons] at ih2
    simp only [List.map_cons]
    rw [e1, normWidgets_intlike_noctl _ hv
        (by rw [isControlWord_normalize]; simpa using hc),
      normWidgets_intlike_noctl rest2 hv (by simpa using hc), List.map_cons, e1, ih2]
  | case7 v next rest2 hv hc ih =>
    have e1 : normalize_workflow_seeds v = v :=
      normalize_scalar_id (by cases v <;> simp_all [isControlWord, pyIsContainer])
    have ih2 := ih
    simp only [List.map_cons] at ih2
    simp only [List.map_cons]
    rw [e1, normWidgets_ctl_cons _ (by simpa using hv) hc,
      normWidgets_ctl_cons (next :: rest2) (by simpa using hv) hc, List.map_cons,
      normalize_str, ih2]
  | case8 v next rest2 hv hc ih =>
    have ih2 := ih
    simp only [List.map_cons] at ih2
    simp only [List.map_cons]
    rw [normWidgets_other_cons _
        (by rw [pyIsIntGtNeg1_normalize]; simpa using hv)
        (by rw [isControlWord_normalize]; simpa using hc),
      normWidgets_other_cons (next :: rest2) (by simpa using hv) (by simpa using hc),
      List.map_cons, ih2]

/-! Shape of `entryNorm` for each class of key. -/

theorem entryNorm_eq_of_plain (k : String)
    (h1 : seed_keys.contains k = false)
    (h2 : control_keys_to_normalize.contains k = false)
    (h3 : (k == "widgets_values") = false)
    (h4 : (k == "inputs") = false)
    (h5 : excluded_keys.contains k = false) (v : JSON) :
    entryNorm k v =
      if pyIsContainer v = true then normalize_workflow_seeds v else v := by
  have h1' : ¬ k ∈ seed_keys := by simpa using h1
  have h2' : ¬ k ∈ control_keys_to_normalize := by simpa using h2
  have h3' : ¬ k = "widgets_values" := by simpa using h3
  have h4' : ¬ k = "inputs" := by simpa using h4
  have h5' : ¬ k ∈ excluded_keys := by simpa using h5
  simp [entryNorm, seedStep, controlStep, widgetsStep, inputsStep, recurseStep,
    h1', h2', h3', h4', h5']

theorem entryNorm_eq_of_excluded (k : String)
    (h1 : seed_keys.contains k = false)
    (h2 : control_keys_to_normalize.contains k = false)
    (h3 : (k == "widgets_values") = false)
    (h4 : (k == "inputs") = false)
    (h5 : excluded_keys.contains k = true) (v : JSON) :
    entryNorm k v = v := by
  have h1' : ¬ k ∈ seed_keys := by simpa using h1
  have h2' : ¬ k ∈ control_keys_to_normalize := by simpa using h2
  have h3' : ¬ k = "widgets_values" := by simpa using h3
  have h4' : ¬ k = "inputs" := by simpa using h4
  have h5' : k ∈ excluded_keys := by simpa using h5
  simp [entryNorm, seedStep, controlStep, widgetsStep, inputsStep, recurseStep,
    h1', h2', h3', h4', h5']

theorem entryNorm_eq_of_seed (k : String)
    (h1 : seed_keys.contains k = true)
    (h2 : control_keys_to_normalize.contains k = false)
    (h3 : (k == "widgets_values") = false)
    (h4 : (k == "inputs") = false)
    (h5 : excluded_keys.contains k = false) (v : JSON) :
    entryNorm k v =
      if pyIsNumeric v = true then JSON.int 0
      else if pyIsContainer v = true then normalize_workflow_seeds v else v := by
  have h1' : k ∈ seed_keys := by simpa using h1
  have h2' : ¬ k ∈ control_keys_to_normalize := by simpa using h2
  have h3' : ¬ k = "widgets_values" := by simpa using h3
  have h4' : ¬ k = "inputs" := by simpa using h4
  have h5' : ¬ k ∈ excluded_keys := by simpa using h5
  by_cases hn : pyIsNumeric v = true
  · simp [entryNorm, seedStep, controlStep, widgetsStep, inputsStep, recurseStep,
      h1', h2', h3', h4', h5', hn, pyIsStr, pyIsContainer, pyIsDict]
  · simp [entryNorm, seedStep, controlStep, widgetsStep, inputsStep, recurseStep,
      h1', h2', h3', h4', h5', hn]

theorem entryNorm_eq_of_control (k : String)
    (h1 : seed_keys.contains k = false)
    (h2 : control_keys_to_normalize.contains k = true)
    (h3 : (k == "widgets_values") = false)
    (h4 : (k == "inputs") = false)
    (h5 : excluded_keys.contains k = false) (v : JSON) :
    entryNorm k v =
      if pyIsStr v = true then JSON.str "fixed"
      else if pyIsContainer v = true then normalize_workflow_seeds v else v := by
  have h1' : ¬ k ∈ seed_keys := by simpa using h1
  have h2' : k ∈ control_keys_to_normalize := by simpa using h2
  have h3' : ¬ k = "widgets_values" := by simpa using h3
  have h4' : ¬ k = "inputs" := by simpa using h4
  have h5' : ¬ k ∈ excluded_keys := by simpa using h5
  by_cases hs : pyIsStr v = true
  · simp [entryNorm, seedStep, controlStep, widgetsStep, inputsStep, recurseStep,
      h1', h2', h3', h4', h5', hs, pyIsNumeric, pyIsContainer, pyIsDict]
  · simp [entryNorm, seedStep, controlStep, widgetsStep, inputsStep, recurseStep,
      h1', h2', h3', h4', h5', hs]

theorem pyIsContainer_widgetsStep (k : String) (v : JSON) :
    pyIsContainer (widgetsStep k v) = pyIsContainer v := by
  cases v <;> unfold widgetsStep <;> split <;> simp [pyIsContainer]

theorem entryNorm_eq_of_widgets (k : String)
    (h1 : seed_keys.contains k = false)
    (h2 : control_keys_to_normalize.contains k = false)
    (h3 : (k == "widgets_values") = true)
    (h4 : (k == "inputs") = false)
    (h5 : excluded_keys.contains k = false) (v : JSON) :
    entryNorm k v =
      if pyIsContainer v = true then normalize_workflow_seeds (widgetsStep k v) else v := by
  have h1' : ¬ k ∈ seed_keys := by simpa using h1
  have h2' : ¬ k ∈ control_keys_to_normalize := by simpa using h2
  have h3' : k = "widgets_values" := by simpa using h3
  have h4' : ¬ k = "inputs" := by simpa using h4
  have h5' : ¬ k ∈ excluded_keys := by simpa using h5
  subst h3'
  cases v <;>
    simp [entryNorm, seedStep, controlStep, widgetsStep, inputsStep, recurseStep,
      h1', h2', h4', h5', pyIsNumeric, pyIsStr, pyIsDict, pyIsContainer]

theorem entryNorm_eq_of_inputs (k : String)
    (h1 : seed_keys.contains k = false)
    (h2 : control_keys_to_normalize.contains k = false)
    (h3 : (k == "widgets_values") = false)
    (h4 : (k == "inputs") = true)
    (h5 : excluded_keys.contains k = false) (v : JSON) :
    entryNorm k v =
      if pyIsDict v = true then
        normalize_workflow_seeds (normalize_workflow_seeds v)
      else if pyIsContainer v = true then normalize_workflow_seeds v else v := by
  have h1' : ¬ k ∈ seed_keys := by simpa using h1
  have h2' : ¬ k ∈ control_keys_to_normalize := by simpa using h2
  have h3' : ¬ k = "widgets_values" := by simpa using h3
  have h4' : k = "inputs" := by simpa using h4
  have h5' : ¬ k ∈ excluded_keys := by simpa using h5
  subst h4'
  cases v with
  | obj kvs2 =>
    have hcont : pyIsContainer (normalize_workflow_seeds (JSON.obj kvs2)) = true := by
      rw [pyIsContainer_normalize]; rfl
    simp [entryNorm, seedStep, controlStep, widgetsStep, inputsStep, recurseStep,
      h1', h2', h3', h5', pyIsNumeric, pyIsStr, pyIsDict, hcont]
  | arr l =>
    simp [entryNorm, seedStep, controlStep, widgetsStep, inputsStep, recurseStep,
      h1', h2', h3', h5', pyIsNumeric, pyIsStr, pyIsDict, pyIsContainer]
  | str a =>
    simp [entryNorm, seedStep, controlStep, widgetsStep, inputsStep, recurseStep,
      h1', h2', h3', h5', pyIsNumeric, pyIsStr, pyIsDict, pyIsContainer]
  | int a =>
    simp [entryNorm, seedStep, controlStep, widgetsStep, inputsStep, recurseStep,
      h1', h2', h3', h5', pyIsNumeric, pyIsStr, pyIsDict, pyIsContainer]
  | float a =>
    simp [entryNorm, seedStep, controlStep, widgetsStep, inputsStep, recurseStep,
      h1', h2', h3', h5', pyIsNumeric, pyIsStr, pyIsDict, pyIsContainer]
  | bool a =>
    simp [entryNorm, seedStep, controlStep, widgetsStep, inputsStep, recurseStep,
      h1', h2', h3', h5', pyIsNumeric, pyIsStr, pyIsDict, pyIsContainer]
  | null =>
    simp [entryNorm, seedStep, controlStep, widgetsStep, inputsStep, recurseStep,
      h1', h2', h3', h5', pyIsNumeric, pyIsStr, pyIsDict, pyIsContainer]

/-! Idempotence of `entryNorm`, class by class. -/

theorem entryNorm_idem_plain (k : String) (v : JSON)
    (hsh : ∀ w, entryNorm k w =
      if pyIsContainer w = true then normalize_workflow_seeds w else w)
    (IH : ∀ u, jsize u ≤ jsize v →
      normalize_workflow_seeds (normalize_workflow_seeds u) = normalize_workflow_seeds u) :
    entryNorm k (entryNorm k v) = entryNorm k v := by
  rw [hsh v]
  by_cases hc : pyIsContainer v = true
  · rw [if_pos hc, hsh (normalize_workflow_seeds v),
      if_pos (by rw [pyIsContainer_normalize]; exact hc)]
    exact IH v (le_refl _)
  · rw [if_neg hc, hsh v, if_neg hc]

theorem entryNorm_idem_excluded (k : String) (v : JSON)
    (hsh : ∀ w, entryNorm k w = w) :
    entryNorm k (entryNorm k v) = entryNorm k v := by
  rw [hsh v, hsh v]

theorem entryNorm_idem_seed (k : String) (v : JSON)
    (hsh : ∀ w, entryNorm k w =
      if pyIsNumeric w = true then JSON.int 0
      else if pyIsContainer w = true then normalize_workflow_seeds w else w)
    (IH : ∀ u, jsize u ≤ jsize v →
      normalize_workflow_seeds (normalize_workflow_seeds u) = normalize_workflow_seeds u) :
    entryNorm k (entryNorm k v) = entryNorm k v := by
  rw [hsh v]
  by_cases hn : pyIsNumeric v = true
  · rw [if_pos hn, hsh (JSON.int 0)]
    rfl
  · rw [if_neg hn]
    by_cases hc : pyIsContainer v = true
    · rw [if_pos hc, hsh (normalize_workflow_seeds v),
        if_neg (by rw [pyIsNumeric_normalize]; simpa using hn),
        if_pos (by rw [pyIsContainer_normalize]; exact hc)]
      exact IH v (le_refl _)
    · rw [if_neg hc, hsh v, if_neg hn, if_neg hc]

theorem entryNorm_idem_control (k : String) (v : JSON)
    (hsh : ∀ w, entryNorm k w =
      if pyIsStr w = true then JSON.str "fixed"
      else if pyIsContainer w = true then normalize_workflow_seeds w else w)
    (IH : ∀ u, jsize u ≤ jsize v →
      normalize_workflow_seeds (normalize_workflow_seeds u) = normalize_workflow_seeds u) :
    entryNorm k (entryNorm k v) = entryNorm k v := by
  rw [hsh v]
  by_cases hs : pyIsStr v = true
  · rw [if_pos hs, hsh (JSON.str "fixed")]
    rfl
  · rw [if_neg hs]
    by_cases hc : pyIsContainer v = true
    · rw [if_pos hc, hsh (normalize_workflow_seeds v),
        if_neg (by rw [pyIsStr_normalize]; simpa using hs),
        if_pos (by rw [pyIsContainer_normalize]; exact hc)]
      exact IH v (le_refl _)
    · rw [if_neg hc, hsh v, if_neg hs, if_neg hc]

theorem entryNorm_idem_widgets (k : String) (v : JSON)
    (hsh : ∀ w, entryNorm k w =
      if pyIsContainer w = true then normalize_workflow_seeds (widgetsStep k w) else w)
    (hw : ∀ l, widgetsStep k (JSON.arr l) = JSON.arr (normWidgets l))
    (hobj : ∀ kvs2, widgetsStep k (JSON.obj kvs2) = JSON.obj kvs2)
    (IH : ∀ u, jsize u ≤ jsize v →
      normalize_workflow_seeds (normalize_workflow_seeds u) = normalize_workflow_seeds u) :
    entryNorm k (entryNorm k v) = entryNorm k v := by
  rw [hsh v]
  by_cases hc : pyIsContainer v = true
  · rw [if_pos hc, hsh (normalize_workflow_seeds (widgetsStep k v)),
      if_pos (by rw [pyIsContainer_normalize, pyIsContainer_widgetsStep]; exact hc)]
    cases v with
    | arr l =>
      rw [hw l, normalize_arr, hw ((normWidgets l).map normalize_workflow_seeds),
        normWidgets_map_normalize (normWidgets l), normWidgets_idem l, ← normalize_arr]
      exact IH (JSON.arr (normWidgets l))
        (by show jsizeList (normWidgets l) + 1 ≤ jsizeList l + 1
            have := jsizeList_normWidgets_le l
            omega)
    | obj kvs2 =>
      rw [hobj kvs2, normalize_obj_entry, hobj _, ← normalize_obj_entry]
      exact IH (JSON.obj kvs2) (le_refl _)
    | str a => simp [pyIsContainer] at hc
    | int a => simp [pyIsContainer] at hc
    | float a => simp [pyIsContainer] at hc
    | bool a => simp [pyIsContainer] at hc
    | null => simp [pyIsContainer] at hc
  · rw [if_neg hc, hsh v, if_neg hc]

theorem entryNorm_idem_inputs (k : String) (v : JSON)
    (hsh : ∀ w, entryNorm k w =
      if pyIsDict w = true then
        normalize_workflow_seeds (normalize_workflow_seeds w)
      else if pyIsContainer w = true then normalize_workflow_seeds w else w)
    (IH : ∀ u, jsize u ≤ jsize v →
      normalize_workflow_seeds (normalize_workflow_seeds u) = normalize_workflow_seeds u) :
    entryNorm k (entryNorm k v) = entryNorm k v := by
  rw [hsh v]
  by_cases hd : pyIsDict v = true
  · rw [if_pos hd, IH v (le_refl _), hsh (normalize_workflow_seeds v),
      if_pos (by rw [pyIsDict_normalize]; exact hd),
      IH (normalize_workflow_seeds v) (jsize_normalize_le _)]
    exact IH v (le_refl _)
  · rw [if_neg hd]
    by_cases hc : pyIsContainer v = true
    · rw [if_pos hc, hsh (normalize_workflow_seeds v),
        if_neg (by rw [pyIsDict_normalize]; simpa using hd),
        if_pos (by rw [pyIsContainer_normalize]; exact hc)]
      exact IH v (le_refl _)
    · rw [if_neg hc, hsh v, if_neg hd, if_neg hc]

theorem entryNorm_idem (k : String) (v : JSON)
    (IH : ∀ u, jsize u ≤ jsize v →
      normalize_workflow_seeds (normalize_workflow_seeds u) = normalize_workflow_seeds u) :
    entryNorm k (entryNorm k v) = entryNorm k v := by
  by_cases h1 : seed_keys.contains k = true
  · have hk : k = "seed" ∨ k = "noise_seed" := by simpa [seed_keys] using h1
    rcases hk with rfl | rfl
    · exact entryNorm_idem_seed _ v
        (entryNorm_eq_of_seed _ (by decide) (by decide) (by decide) (by decide) (by decide)) IH
    · exact entryNorm_idem_seed _ v
        (entryNorm_eq_of_seed _ (by decide) (by decide) (by decide) (by decide) (by decide)) IH
  · by_cases h2 : control_keys_to_normalize.contains k = true
    · have hk : k = "control_after_generate" ∨ k = "control_before_generate" := by
        simpa [control_keys_to_normalize] using h2
      rcases hk with rfl | rfl
      · exact entryNorm_idem_control _ v
          (entryNorm_eq_of_control _ (by decide) (by decide) (by decide) (by decide)
            (by decide)) IH
      · exact entryNorm_idem_control _ v
          (entryNorm_eq_of_control _ (by decide) (by decide) (by decide) (by decide)
            (by decide)) IH
    · by_cases h3 : (k == "widgets_values") = true
      · have hk : k = "widgets_values" := by simpa using h3
        subst hk
        exact entryNorm_idem_widgets _ v
          (entryNorm_eq_of_widgets _ (by decide) (by decide) (by decide) (by decide)
            (by decide))
          (fun l => by simp [widgetsStep]) (fun kvs2 => by simp [widgetsStep]) IH
      · by_cases h4 : (k == "inputs") = true
        · have hk : k = "inputs" := by simpa using h4
          subst hk
          exact entryNorm_idem_inputs _ v
            (entryNorm_eq_of_inputs _ (by decide) (by decide) (by decide) (by decide)
              (by decide)) IH
        · by_cases h5 : excluded_keys.contains k = true
          · exact entryNorm_idem_excluded _ v
              (entryNorm_eq_of_excluded k (by simpa using h1) (by simpa using h2)
                (by simpa using h3) (by simpa using h4) h5)
          · exact entryNorm_idem_plain _ v
              (entryNorm_eq_of_plain k (by simpa using h1) (by simpa using h2)
                (by simpa using h3) (by simpa using h4) (by simpa using h5)) IH

theorem normalize_idem_aux : ∀ n : Nat, ∀ t : JSON, jsize t ≤ n →
    normalize_workflow_seeds (normalize_workflow_seeds t) = normalize_workflow_seeds t := by
  intro n
  induction n with
  | zero =>
    intro t ht
    have := jsize_pos t
    omega
  | succ n ih =>
    intro t ht
    cases t with
    | obj kvs =>
      rw [normalize_obj_entry kvs, normalize_obj_entry, List.map_map]
      congr 1
      apply List.map_congr_left
      intro kv hm
      have hb : jsize kv.2 ≤ jsizeKVs kvs := jsize_le_of_mem hm
      have hsz : jsize (JSON.obj kvs) = jsizeKVs kvs + 1 := rfl
      show (kv.1, entryNorm kv.1 (entryNorm kv.1 kv.2)) = (kv.1, entryNorm kv.1 kv.2)
      rw [entryNorm_idem kv.1 kv.2 (fun u hu => ih u (by omega))]
    | arr l =>
      rw [normalize_arr, normalize_arr, List.map_map]
      congr 1
      apply List.map_congr_left
      intro v hm
      have hb := jsize_le_of_mem_list hm
      have hsz : jsize (JSON.arr l) = jsizeList l + 1 := rfl
      show normalize_workflow_seeds (normalize_workflow_seeds v) = normalize_workflow_seeds v
      exact ih v (by omega)
    | str s => rfl
    | int m => rfl
    | float q => rfl
    | bool b => rfl
    | null => rfl

/-- C7: the normalizer is idempotent — `normalize(normalize(T)) = normalize(T)`
for every tree `T`. -/
theorem C7_normalize_idempotent (T : JSON) :
    normalize_workflow_seeds (normalize_workflow_seeds T) = normalize_workflow_seeds T :=
  normalize_idem_aux (jsize T) T (le_refl _)
